import Mathlib

/-!
Shallow embedding of the task-graph scheduler in `src/src/agent/graph.py`:
the `Task` / `TaskTree` data model, `get_ready_tasks`, `update_task_status`,
the XML plan parser (`TaskPlanner._parse_task_tree_xml`,
`TaskPlanner._create_default_task_tree`, `TaskPlanner.create_task_tree`),
the executor layer (`BaseExecutor.execute`, `ExecutorManager.execute_task`)
and the drain loop of `execution_node`.

External collaborators (the LLM plan generator, `ET.fromstring`, and the
react-agent invocation inside an executor) are opaque library calls, so they
enter the model as oracle parameters; everything written in the repository
itself is translated directly.
-/

set_option autoImplicit false

namespace Graph

/-- A task parameter value: the Python code stores strings, ints (`"days": 7`)
and possibly `None` (an XML parameter tag with no text) in the
`parameters: Dict[str, Any]` field. -/
inductive PVal where
  | str : String → PVal
  | int : Int → PVal
  | none : PVal
deriving DecidableEq

/-- Mirror of the pydantic `Task` model (graph.py lines 78-86). -/
structure Task where
  id : String
  name : String
  description : String
  executor_type : String
  dependencies : List String
  parameters : List (String × PVal)
  status : String
  result : Option String
deriving DecidableEq

/-- Mirror of the pydantic `TaskTree` model (graph.py lines 88-90). -/
structure TaskTree where
  root_task : Task
  tasks : List Task
deriving DecidableEq

/-- `any(t.id == dep_id and t.status == "completed" for t in self.tasks)`
(graph.py line 98). -/
def depCompleted (tasks : List Task) (dep_id : String) : Bool :=
  tasks.any (fun t => t.id == dep_id && t.status == "completed")

/-- The readiness test applied to one task inside `get_ready_tasks`
(graph.py lines 96-102): status is `"pending"` and, when the dependency
list is nonempty, every dependency id maps to a completed task. -/
def isReadyB (tasks : List Task) (task : Task) : Bool :=
  task.status == "pending" &&
    (if task.dependencies.isEmpty then true
     else task.dependencies.all (fun d => depCompleted tasks d))

/-- `TaskTree.get_ready_tasks` (graph.py lines 92-104). -/
def TaskTree.get_ready_tasks (tt : TaskTree) : List Task :=
  tt.tasks.filter (fun task => isReadyB tt.tasks task)

/-- `if result: task.result = result` (graph.py lines 111-112): a falsy
`result` argument (Python `None` or the empty string) leaves the stored
result untouched. -/
def applyResult (result old : Option String) : Option String :=
  match result with
  | some r => if r = "" then old else some r
  | Option.none => old

/-- The in-place field mutation performed on the matched task by
`update_task_status` (graph.py lines 110-112). -/
def applyUpd (status : String) (result : Option String) (t : Task) : Task :=
  { t with status := status, result := applyResult result t.result }

/-- The `for task in self.tasks: if task.id == task_id: ...; break` loop of
`update_task_status` (graph.py lines 108-114): only the first task whose id
matches is mutated. -/
def updateFirst : List Task → String → String → Option String → List Task
  | [], _, _, _ => []
  | t :: rest, task_id, status, result =>
    if t.id = task_id then applyUpd status result t :: rest
    else t :: updateFirst rest task_id status result

/-- `TaskTree.update_task_status` (graph.py lines 106-114). -/
def TaskTree.update_task_status (tt : TaskTree) (task_id status : String)
    (result : Option String) : TaskTree :=
  { tt with tasks := updateFirst tt.tasks task_id status result }

/-- Index of the first task whose id matches — the position `update_task_status`
mutates, used to state its frame property. -/
def firstMatchIdx : List Task → String → Option Nat
  | [], _ => Option.none
  | t :: rest, task_id =>
    if t.id = task_id then some 0
    else (firstMatchIdx rest task_id).map (· + 1)

/-- The fields of a task that `update_task_status` never writes: the graph
topology (id, name, description, executor kind, dependencies, parameters). -/
def topoT (t : Task) : String × String × String × String × List String × List (String × PVal) :=
  (t.id, t.name, t.description, t.executor_type, t.dependencies, t.parameters)

/-- Number of tasks still `"pending"` — the termination measure of the
drain loop in `execution_node`. -/
def countPending (tt : TaskTree) : Nat :=
  tt.tasks.countP (fun t => t.status == "pending")

/-- An `xml.etree.ElementTree` element, as far as the parser inspects it:
a tag, optional text, and child elements. -/
inductive XElem where
  | mk : String → Option String → List XElem → XElem

def XElem.tag : XElem → String
  | XElem.mk t _ _ => t

def XElem.text : XElem → Option String
  | XElem.mk _ x _ => x

def XElem.children : XElem → List XElem
  | XElem.mk _ _ c => c

/-- `Element.find(tag)`: the first direct child with the given tag. -/
def XElem.find (e : XElem) (t : String) : Option XElem :=
  e.children.find? (fun c => c.tag == t)

/-- `Element.findall(tag)`: all direct children with the given tag. -/
def XElem.findall (e : XElem) (t : String) : List XElem :=
  e.children.filter (fun c => c.tag == t)

/-- Python `str.split(sep)` on a character list: split at every separator,
keeping empty pieces. -/
def splitChars (sep : Char) (cs : List Char) : List (List Char) :=
  cs.foldr
    (fun c acc =>
      if c = sep then [] :: acc
      else
        match acc with
        | a :: rest => (c :: a) :: rest
        | [] => [[c]])
    [[]]

/-- Python `str.split(',')`. -/
def pySplit (s : String) (sep : Char) : List String :=
  (splitChars sep s.data).map (fun cs => String.mk cs)

/-- Python `str.strip()`: drop leading and trailing whitespace. -/
def pyTrim (s : String) : String :=
  String.mk (((s.data.dropWhile Char.isWhitespace).reverse.dropWhile Char.isWhitespace).reverse)

/-- Dependency extraction in `_parse_task_tree_xml` (graph.py lines 406-409):
`deps = [d.strip() for d in deps_elem.text.split(',') if d.strip()]`, with the
empty list when the element is absent or its text falsy. -/
def parseDeps (te : XElem) : List String :=
  match te.find "dependencies" with
  | some depsElem =>
    match depsElem.text with
    | some s => ((pySplit s ',').map (fun d => pyTrim d)).filter (fun d => d ≠ "")
    | Option.none => []
  | Option.none => []

/-- Parameter extraction in `_parse_task_tree_xml` (graph.py lines 412-416):
`params[param.tag] = param.text` over the children of `parameters`. -/
def parseParams (te : XElem) : List (String × PVal) :=
  match te.find "parameters" with
  | some pe =>
    pe.children.map (fun p =>
      (p.tag, match p.text with
              | some s => PVal.str s
              | Option.none => PVal.none))
  | Option.none => []

/-- `task_elem.find(tag).text or dflt` (graph.py lines 420-422): raises
`AttributeError` (modelled as `Except.error`) when the child element is
absent, and substitutes the default when its text is `None` or empty. -/
def fieldOr (te : XElem) (tag dflt : String) : Except Unit String :=
  match te.find tag with
  | Option.none => Except.error ()
  | some el =>
    Except.ok (match el.text with
               | some s => if s = "" then dflt else s
               | Option.none => dflt)

/-- `task_elem.find('id').text or str(uuid.uuid4())` (graph.py line 419):
`uuidGen k` stands for the k-th freshly generated uuid; `k` is bumped when a
uuid is consumed. -/
def idOr (te : XElem) (uuidGen : Nat → String) (k : Nat) : Except Unit (String × Nat) :=
  match te.find "id" with
  | Option.none => Except.error ()
  | some el =>
    Except.ok (match el.text with
               | some s => if s = "" then (uuidGen k, k + 1) else (s, k)
               | Option.none => (uuidGen k, k + 1))

/-- Construction of one subtask in `_parse_task_tree_xml` (graph.py lines
404-425); any `AttributeError` propagates to the surrounding `except`. -/
def parseTask (uuidGen : Nat → String) (k : Nat) (te : XElem) : Except Unit (Task × Nat) :=
  match idOr te uuidGen k with
  | Except.error e => Except.error e
  | Except.ok (idV, k') =>
    match fieldOr te "name" "默认任务" with
    | Except.error e => Except.error e
    | Except.ok nameV =>
      match fieldOr te "description" "默认描述" with
      | Except.error e => Except.error e
      | Except.ok descV =>
        match fieldOr te "executor_type" "data_collector" with
        | Except.error e => Except.error e
        | Except.ok execV =>
          Except.ok ({ id := idV, name := nameV, description := descV,
                       executor_type := execV, dependencies := parseDeps te,
                       parameters := parseParams te, status := "pending",
                       result := Option.none }, k')

/-- The `for task_elem in tasks_elem.findall('task')` loop (graph.py
lines 404-426), threading the uuid counter. -/
def parseTasks (uuidGen : Nat → String) : List XElem → Nat → Except Unit (List Task)
  | [], _ => Except.ok []
  | te :: rest, k =>
    match parseTask uuidGen k te with
    | Except.error e => Except.error e
    | Except.ok (t, k') =>
      match parseTasks uuidGen rest k' with
      | Except.error e => Except.error e
      | Except.ok ts => Except.ok (t :: ts)

/-- Python `sub in s` substring test, used by `_create_default_task_tree`. -/
def strContains (s sub : String) : Bool :=
  (List.range (s.data.length + 1)).any (fun i => List.isPrefixOf sub.data (s.data.drop i))

/-- The symbol selection of `_create_default_task_tree` (graph.py lines
438-440); both branches yield `"0700.HK"`. -/
def default_symbol (user_query : String) : String :=
  if strContains user_query "0700" || strContains user_query "腾讯" then "0700.HK"
  else "0700.HK"

/-- The locally synthesized root task (graph.py lines 393-398 and 442-447). -/
def rootTaskFor (user_query : String) : Task :=
  { id := "root", name := "投资分析", description := user_query,
    executor_type := "coordinator", dependencies := [], parameters := [],
    status := "pending", result := Option.none }

/-- `TaskPlanner._create_default_task_tree` (graph.py lines 434-490). -/
def default_task_tree (user_query : String) : TaskTree :=
  { root_task := rootTaskFor user_query,
    tasks := [
      rootTaskFor user_query,
      { id := "data_collection", name := "基础数据收集",
        description := "收集" ++ default_symbol user_query ++ "的基础财务和市场数据",
        executor_type := "data_collector", dependencies := [],
        parameters := [("symbol", PVal.str (default_symbol user_query)), ("period", PVal.str "1y")],
        status := "pending", result := Option.none },
      { id := "technical_analysis", name := "技术面分析",
        description := "分析" ++ default_symbol user_query ++ "的技术指标和图表形态",
        executor_type := "technical_analyst", dependencies := ["data_collection"],
        parameters := [("symbol", PVal.str (default_symbol user_query)), ("indicators", PVal.str "MA,RSI,MACD")],
        status := "pending", result := Option.none },
      { id := "news_analysis", name := "消息面分析",
        description := "分析相关新闻和市场情绪对投资的影响",
        executor_type := "news_analyst", dependencies := [],
        parameters := [("keyword", PVal.str "腾讯控股"), ("days", PVal.int 7)],
        status := "pending", result := Option.none },
      { id := "risk_assessment", name := "风险评估",
        description := "全面评估投资风险和潜在收益",
        executor_type := "risk_assessor", dependencies := ["data_collection"],
        parameters := [("position_size", PVal.str "medium"), ("market_cap", PVal.str "large")],
        status := "pending", result := Option.none },
      { id := "report_generation", name := "投资报告生成",
        description := "整合所有分析结果，生成综合投资建议",
        executor_type := "report_generator", dependencies := ["technical_analysis", "news_analysis", "risk_assessment"],
        parameters := [], status := "pending", result := Option.none } ] }

/-- The subtask list built by the `if tasks_elem is not None` block of
`_parse_task_tree_xml` (graph.py lines 402-426). -/
def subtasksOf (uuidGen : Nat → String) (root : XElem) : Except Unit (List Task) :=
  match root.find "tasks" with
  | Option.none => Except.ok []
  | some tasksElem => parseTasks uuidGen (tasksElem.findall "task") 0

/-- `TaskPlanner._parse_task_tree_xml` (graph.py lines 377-432).
`fromstringResult` is the outcome of the opaque `ET.fromstring` call on the
cleaned text: `Except.error` when it raises `ParseError`. Any exception inside
the `try` block falls back to the default tree. -/
def parse_task_tree_xml (uuidGen : Nat → String) :
    Except Unit XElem → String → TaskTree
  | Except.error _, user_query => default_task_tree user_query
  | Except.ok root, user_query =>
    match subtasksOf uuidGen root with
    | Except.error _ => default_task_tree user_query
    | Except.ok subtasks =>
      { root_task := rootTaskFor user_query, tasks := rootTaskFor user_query :: subtasks }

/-- `TaskPlanner.create_task_tree` (graph.py lines 365-375). The outer
`Except` is the outcome of the opaque `self.chain.invoke` LLM call; its `ok`
payload is the `ET.fromstring` outcome on the returned text. A raising chain
falls back to the default tree. -/
def create_task_tree (uuidGen : Nat → String)
    (planResult : Except Unit (Except Unit XElem)) (user_query : String) : TaskTree :=
  match planResult with
  | Except.error _ => default_task_tree user_query
  | Except.ok fr => parse_task_tree_xml uuidGen fr user_query

/-- `BaseExecutor.execute` (graph.py lines 257-273): the opaque
`self.agent.invoke` call (`agent task`) either returns text or raises; a
raise is caught and converted into the normal string `"执行失败: " + str(e)`.
The `context` argument of the Python method is never read, so it is omitted. -/
def BaseExecutor_execute (agent : Task → Except String String) (task : Task) :
    Except String String :=
  match agent task with
  | Except.ok content => Except.ok content
  | Except.error e => Except.ok ("执行失败: " ++ e)

/-- `ExecutorManager.get_executor` (graph.py lines 323-324): dictionary
lookup with `data_collector` as the default for unknown kinds. -/
def get_executor_key (executor_type : String) : String :=
  if ["data_collector", "technical_analyst", "news_analyst", "risk_assessor",
      "report_generator"].contains executor_type
  then executor_type else "data_collector"

/-- `ExecutorManager.execute_task` (graph.py lines 326-328): `agents` gives
the opaque react-agent of each registered executor kind. -/
def ExecutorManager_execute_task (agents : String → Task → Except String String)
    (task : Task) : Except String String :=
  BaseExecutor_execute (agents (get_executor_key task.executor_type)) task

/-- The executor call as seen from `execution_node`: the tree argument is
unused because the Python `context` never reaches the agent prompt. -/
def execOf (agents : String → Task → Except String String) :
    TaskTree → Task → Except String String :=
  fun _ task => ExecutorManager_execute_task agents task

/-- The body of the `for task in ready_tasks` loop of `execution_node`
(graph.py lines 562-580): the root is auto-completed without an executor
call; otherwise the executor result marks the task `completed`, and a raised
exception marks it `failed` with the error text. -/
def processTask (exec : TaskTree → Task → Except String String)
    (tt : TaskTree) (task : Task) : TaskTree :=
  if task.id = "root" then
    tt.update_task_status task.id "completed" Option.none
  else
    match exec tt task with
    | Except.ok r => tt.update_task_status task.id "completed" (some r)
    | Except.error e => tt.update_task_status task.id "failed" (some e)

/-- One iteration of the `while True` drain loop of `execution_node`
(graph.py lines 557-580): snapshot the ready set, then process each task. -/
def execStep (exec : TaskTree → Task → Except String String) (tt : TaskTree) : TaskTree :=
  (tt.get_ready_tasks).foldl (processTask exec) tt

/-- Trees reachable from plan parsing followed by scheduler status updates
(`execution_node` only ever writes the statuses `"completed"` and
`"failed"`). -/
inductive SchedReachable : TaskTree → Prop where
  | parsed (uuidGen : Nat → String) (pr : Except Unit (Except Unit XElem)) (q : String) :
      SchedReachable (create_task_tree uuidGen pr q)
  | upd (task_id status : String) (result : Option String) (tt : TaskTree)
      (hst : status = "completed" ∨ status = "failed")
      (h : SchedReachable tt) :
      SchedReachable (tt.update_task_status task_id status result)

/-- A fixed uuid supply for concrete instances. -/
def uuidGen0 : Nat → String :=
  fun k => "uuid-" ++ toString k

/-- An agent supply whose every invocation returns the text `"r"`. -/
def agentsOk : String → Task → Except String String :=
  fun _ _ => Except.ok "r"

/-- An agent supply whose invocation raises `Exception("boom")` on the task
with id `"A"` and succeeds with `"ok"` elsewhere. -/
def agentsBoom : String → Task → Except String String :=
  fun _ t => if t.id = "A" then Except.error "boom" else Except.ok "ok"

/-- A leaf XML element. -/
def leafE (tag : String) (txt : Option String) : XElem :=
  XElem.mk tag txt []

/-- A well-formed `<task>` element with the given id and dependency text. -/
def taskE (idTxt : String) (depsTxt : Option String) : XElem :=
  XElem.mk "task" Option.none
    [leafE "id" (some idTxt), leafE "name" (some ("任务" ++ idTxt)),
     leafE "description" (some "描述"), leafE "executor_type" (some "data_collector"),
     leafE "dependencies" depsTxt]

/-- A well-formed plan: A (no deps), B (dep on A), C (dep on B). -/
def xmlABC : XElem :=
  XElem.mk "task_tree" Option.none
    [XElem.mk "root_task" Option.none [],
     XElem.mk "tasks" Option.none
       [taskE "A" Option.none, taskE "B" (some "A"), taskE "C" (some "B")]]

/-- A plan whose two subtasks share the id `"x"`. -/
def xmlDup : XElem :=
  XElem.mk "task_tree" Option.none
    [XElem.mk "tasks" Option.none [taskE "x" Option.none, taskE "x" Option.none]]

/-- An otherwise-parseable plan whose single subtask has no `<id>` element. -/
def xmlNoId : XElem :=
  XElem.mk "task_tree" Option.none
    [XElem.mk "tasks" Option.none
      [XElem.mk "task" Option.none
        [leafE "name" (some "有名字"), leafE "description" (some "描述"),
         leafE "executor_type" (some "data_collector"), leafE "dependencies" Option.none]]]

/-- A plan whose single subtask carries all four field elements but with
empty text in each, and no dependencies or parameters element. -/
def xmlEmptyFields : XElem :=
  XElem.mk "task_tree" Option.none
    [XElem.mk "tasks" Option.none
      [XElem.mk "task" Option.none
        [leafE "id" Option.none, leafE "name" Option.none,
         leafE "description" Option.none, leafE "executor_type" Option.none]]]

/-- A minimal pending task for concrete graphs. -/
def mkT (i : String) (deps : List String) : Task :=
  { id := i, name := "任务" ++ i, description := "描述",
    executor_type := "data_collector", dependencies := deps, parameters := [],
    status := "pending", result := Option.none }

/-- The tree parsed from the duplicate-id plan. -/
def ttDup : TaskTree :=
  parse_task_tree_xml uuidGen0 (Except.ok xmlDup) "查询"

/-- Graph for the failing-executor scenario: root, A, and B depending on A. -/
def ttC3 : TaskTree :=
  { root_task := mkT "root" [], tasks := [mkT "root" [], mkT "A" [], mkT "B" ["A"]] }

/-- The tree parsed from the A → B → C plan. -/
def ttABC0 : TaskTree :=
  parse_task_tree_xml uuidGen0 (Except.ok xmlABC) "查询"

/-- `ttABC0` after the root auto-completion and A's completion. -/
def ttABC1 : TaskTree :=
  (ttABC0.update_task_status "root" "completed" Option.none).update_task_status
    "A" "completed" (some "rA")

/-- `ttABC1` after B's completion. -/
def ttABC2 : TaskTree :=
  ttABC1.update_task_status "B" "completed" (some "rB")

/-- `ttABC2` after C's completion. -/
def ttABC3 : TaskTree :=
  ttABC2.update_task_status "C" "completed" (some "rC")

/-- Concrete two-task graph for witnesses. -/
def ttW9 : TaskTree :=
  { root_task := mkT "root" [], tasks := [mkT "a" [], mkT "b" []] }

/-- Concrete graph whose task already carries a result. -/
def tOld : Task :=
  { mkT "o" [] with result := some "old" }

/-- Concrete one-task graph for the falsy-result witness. -/
def ttW10 : TaskTree :=
  { root_task := tOld, tasks := [tOld] }

theorem isReadyB_eq_all (tasks : List Task) (t : Task) :
    isReadyB tasks t =
      (t.status == "pending" && t.dependencies.all (fun d => depCompleted tasks d)) := by
  unfold isReadyB
  rcases h : t.dependencies with _ | ⟨a, l⟩ <;> simp [h]

theorem isReadyB_iff (tasks : List Task) (t : Task) :
    isReadyB tasks t = true ↔
      t.status = "pending" ∧
        ∀ d ∈ t.dependencies, ∃ u ∈ tasks, u.id = d ∧ u.status = "completed" := by
  rw [isReadyB_eq_all]
  simp [List.all_eq_true, depCompleted, List.any_eq_true, and_assoc]

theorem mem_ready_pending (tt : TaskTree) (t : Task) (h : t ∈ tt.get_ready_tasks) :
    t ∈ tt.tasks ∧ t.status = "pending" := by
  rw [TaskTree.get_ready_tasks, List.mem_filter] at h
  exact ⟨h.1, ((isReadyB_iff tt.tasks t).mp h.2).1⟩

/-- C1: `get_ready_tasks` returns exactly the tasks of the graph whose status
is `"pending"` and whose every declared dependency id equals the id of some
completed task of the same graph; a pending task with no dependencies is
always returned, and one with an unmatched or non-completed dependency never
is. -/
theorem get_ready_tasks_spec (tt : TaskTree) (t : Task) :
    t ∈ tt.get_ready_tasks ↔
      t ∈ tt.tasks ∧ t.status = "pending" ∧
        ∀ d ∈ t.dependencies, ∃ u ∈ tt.tasks, u.id = d ∧ u.status = "completed" := by
  rw [TaskTree.get_ready_tasks, List.mem_filter, isReadyB_iff]

theorem applyResult_idem (r x : Option String) :
    applyResult r (applyResult r x) = applyResult r x := by
  cases r with
  | none => rfl
  | some s =>
    by_cases h : s = "" <;> simp [applyResult, h]

theorem applyUpd_idem (st : String) (r : Option String) (t : Task) :
    applyUpd st r (applyUpd st r t) = applyUpd st r t := by
  simp [applyUpd, applyResult_idem]

theorem applyUpd_id (st : String) (r : Option String) (t : Task) :
    (applyUpd st r t).id = t.id := rfl

theorem updateFirst_cons (hd : Task) (tl : List Task) (tid st : String) (r : Option String) :
    updateFirst (hd :: tl) tid st r =
      if hd.id = tid then applyUpd st r hd :: tl
      else hd :: updateFirst tl tid st r := rfl

theorem updateFirst_idem (tasks : List Task) (tid st : String) (r : Option String) :
    updateFirst (updateFirst tasks tid st r) tid st r = updateFirst tasks tid st r := by
  induction tasks with
  | nil => rfl
  | cons hd tl ih =>
    rw [updateFirst_cons]
    by_cases h : hd.id = tid
    · rw [if_pos h, updateFirst_cons, if_pos (by rw [applyUpd_id]; exact h), applyUpd_idem]
    · rw [if_neg h, updateFirst_cons, if_neg h, ih]

theorem updateFirst_absent (tasks : List Task) (tid st : String) (r : Option String)
    (h : ∀ t ∈ tasks, t.id ≠ tid) :
    updateFirst tasks tid st r = tasks := by
  induction tasks with
  | nil => rfl
  | cons hd tl ih =>
    unfold updateFirst
    rw [if_neg (h hd (List.mem_cons_self hd tl))]
    rw [ih (fun t ht => h t (List.mem_cons_of_mem hd ht))]

/-- C8: `update_task_status` is idempotent — repeating a call with identical
arguments changes nothing after the first — and is a silent no-op when no
task of the graph carries the given id. -/
theorem update_task_status_idem (tt : TaskTree) (tid st : String) (r : Option String) :
    (tt.update_task_status tid st r).update_task_status tid st r =
        tt.update_task_status tid st r ∧
      ((∀ t ∈ tt.tasks, t.id ≠ tid) → tt.update_task_status tid st r = tt) := by
  constructor
  · unfold TaskTree.update_task_status
    simp [updateFirst_idem]
  · intro h
    unfold TaskTree.update_task_status
    rw [updateFirst_absent tt.tasks tid st r h]

/-- Witness for C8 at a concrete graph with the id `"zzz"` absent. -/
theorem update_task_status_idem_witness :
    (ttW9.update_task_status "zzz" "completed" (some "r")).update_task_status
        "zzz" "completed" (some "r") =
      ttW9.update_task_status "zzz" "completed" (some "r") ∧
    ttW9.update_task_status "zzz" "completed" (some "r") = ttW9 :=
  ⟨(update_task_status_idem ttW9 "zzz" "completed" (some "r")).1,
   (update_task_status_idem ttW9 "zzz" "completed" (some "r")).2 (by decide)⟩

theorem firstMatchIdx_cons (hd : Task) (tl : List Task) (tid : String) :
    firstMatchIdx (hd :: tl) tid =
      if hd.id = tid then some 0
      else (firstMatchIdx tl tid).map (· + 1) := rfl

theorem updateFirst_get? (tasks : List Task) (tid st : String) (r : Option String) (i : Nat) :
    (updateFirst tasks tid st r)[i]? =
      if firstMatchIdx tasks tid = some i then tasks[i]?.map (applyUpd st r)
      else tasks[i]? := by
  induction tasks generalizing i with
  | nil => simp [updateFirst, firstMatchIdx]
  | cons hd tl ih =>
    by_cases h : hd.id = tid
    · rw [updateFirst_cons, if_pos h, firstMatchIdx_cons, if_pos h]
      cases i with
      | zero => simp
      | succ k => simp
    · rw [updateFirst_cons, if_neg h, firstMatchIdx_cons, if_neg h]
      cases i with
      | zero =>
        rcases hmk : firstMatchIdx tl tid with _ | m <;> simp [hmk]
      | succ k =>
        simp only [List.getElem?_cons_succ]
        rw [ih k]
        rcases hmk : firstMatchIdx tl tid with _ | m
        · simp [hmk]
        · by_cases hk : m = k <;> simp [hmk, hk]

theorem firstMatchIdx_id (tasks : List Task) (tid : String) (i : Nat) (t : Task)
    (hidx : firstMatchIdx tasks tid = some i) (hget : tasks[i]? = some t) :
    t.id = tid := by
  induction tasks generalizing i with
  | nil => simp [firstMatchIdx] at hidx
  | cons hd tl ih =>
    rw [firstMatchIdx_cons] at hidx
    by_cases h : hd.id = tid
    · rw [if_pos h] at hidx
      have hi : i = 0 := by simpa using hidx.symm
      subst hi
      rw [List.getElem?_cons_zero] at hget
      cases hget
      exact h
    · rw [if_neg h] at hidx
      rcases hmk : firstMatchIdx tl tid with _ | k
      · rw [hmk] at hidx
        simp at hidx
      · rw [hmk] at hidx
        have hi : i = k + 1 := by simpa using hidx.symm
        subst hi
        rw [List.getElem?_cons_succ] at hget
        exact ih k hmk hget

theorem updateFirst_length (tasks : List Task) (tid st : String) (r : Option String) :
    (updateFirst tasks tid st r).length = tasks.length := by
  induction tasks with
  | nil => rfl
  | cons hd tl ih =>
    rw [updateFirst_cons]
    by_cases h : hd.id = tid
    · rw [if_pos h]
      simp
    · rw [if_neg h]
      simp [ih]

theorem topoT_applyUpd (st : String) (r : Option String) (t : Task) :
    topoT (applyUpd st r t) = topoT t := rfl

theorem updateFirst_map_topo (tasks : List Task) (tid st : String) (r : Option String) :
    (updateFirst tasks tid st r).map topoT = tasks.map topoT := by
  induction tasks with
  | nil => rfl
  | cons hd tl ih =>
    rw [updateFirst_cons]
    by_cases h : hd.id = tid
    · rw [if_pos h]
      simp [topoT_applyUpd]
    · rw [if_neg h]
      simp [ih]

theorem updateFirst_map_id (tasks : List Task) (tid st : String) (r : Option String) :
    (updateFirst tasks tid st r).map Task.id = tasks.map Task.id := by
  induction tasks with
  | nil => rfl
  | cons hd tl ih =>
    rw [updateFirst_cons]
    by_cases h : hd.id = tid
    · rw [if_pos h]
      simp [applyUpd_id]
    · rw [if_neg h]
      simp [ih]

theorem processTask_map_topo (exec : TaskTree → Task → Except String String)
    (tt : TaskTree) (task : Task) :
    (processTask exec tt task).tasks.map topoT = tt.tasks.map topoT := by
  unfold processTask TaskTree.update_task_status
  by_cases h : task.id = "root"
  · rw [if_pos h]
    exact updateFirst_map_topo _ _ _ _
  · rw [if_neg h]
    cases exec tt task <;> exact updateFirst_map_topo _ _ _ _

theorem foldl_processTask_map_topo (exec : TaskTree → Task → Except String String)
    (l : List Task) (tt : TaskTree) :
    (l.foldl (processTask exec) tt).tasks.map topoT = tt.tasks.map topoT := by
  induction l generalizing tt with
  | nil => rfl
  | cons a l ih =>
    rw [List.foldl_cons, ih, processTask_map_topo]

theorem execStep_map_topo (exec : TaskTree → Task → Except String String) (tt : TaskTree) :
    (execStep exec tt).tasks.map topoT = tt.tasks.map topoT :=
  foldl_processTask_map_topo exec tt.get_ready_tasks tt

/-- C9: `update_task_status` mutates at most the first task whose id matches
— every other index is untouched, the matched index keeps its id, name,
description, executor kind, dependencies and parameters and only its status
and result change — and the whole-graph topology is preserved by every
scheduler iteration. -/
theorem update_task_status_frame (tt : TaskTree) (tid st : String) (r : Option String) :
    (tt.update_task_status tid st r).tasks.length = tt.tasks.length ∧
    (∀ i, firstMatchIdx tt.tasks tid ≠ some i →
      (tt.update_task_status tid st r).tasks[i]? = tt.tasks[i]?) ∧
    (∀ i t, firstMatchIdx tt.tasks tid = some i → tt.tasks[i]? = some t →
      t.id = tid ∧
      (tt.update_task_status tid st r).tasks[i]? = some (applyUpd st r t) ∧
      topoT (applyUpd st r t) = topoT t) ∧
    (∀ exec, (execStep exec tt).tasks.map topoT = tt.tasks.map topoT) := by
  refine ⟨updateFirst_length _ _ _ _, ?_, ?_, fun exec => execStep_map_topo exec tt⟩
  · intro i hne
    unfold TaskTree.update_task_status
    rw [updateFirst_get?, if_neg hne]
  · intro i t hidx hget
    refine ⟨firstMatchIdx_id tt.tasks tid i t hidx hget, ?_, topoT_applyUpd st r t⟩
    unfold TaskTree.update_task_status
    rw [updateFirst_get?, if_pos hidx, hget]
    rfl

/-- Witness for C9 at a concrete two-task graph, updating the second task. -/
theorem update_task_status_frame_witness :
    (ttW9.update_task_status "b" "completed" (some "r")).tasks[0]? = ttW9.tasks[0]? ∧
    topoT (applyUpd "completed" (some "r") (mkT "b" [])) = topoT (mkT "b" []) :=
  ⟨(update_task_status_frame ttW9 "b" "completed" (some "r")).2.1 0 (by decide),
   ((update_task_status_frame ttW9 "b" "completed" (some "r")).2.2.1 1 (mkT "b" [])
      (by decide) (by decide)).2.2⟩

/-- C10: when the `result` argument is falsy (`None` or the empty string)
the matched task keeps its prior result even though its status is written;
and a non-`None` result is never cleared by any update. -/
theorem update_falsy_result_preserved (tt : TaskTree) (tid st : String) (r : Option String)
    (i : Nat) (t t' : Task) (hget : tt.tasks[i]? = some t)
    (hget' : (tt.update_task_status tid st r).tasks[i]? = some t') :
    ((r = Option.none ∨ r = some "") → t'.result = t.result) ∧
    (t.result ≠ Option.none → t'.result ≠ Option.none) ∧
    (firstMatchIdx tt.tasks tid = some i → t'.status = st) := by
  unfold TaskTree.update_task_status at hget'
  rw [updateFirst_get?] at hget'
  by_cases hidx : firstMatchIdx tt.tasks tid = some i
  · rw [if_pos hidx, hget] at hget'
    have ht' : t' = applyUpd st r t := by
      cases hget'
      rfl
    subst ht'
    refine ⟨?_, ?_, fun _ => rfl⟩
    · rintro (rfl | rfl) <;> simp [applyUpd, applyResult]
    · intro hres
      cases r with
      | none => exact hres
      | some s =>
        by_cases hs : s = ""
        · simpa [applyUpd, applyResult, hs] using hres
        · simp [applyUpd, applyResult, hs]
  · rw [if_neg hidx, hget] at hget'
    have ht' : t' = t := by
      cases hget'
      rfl
    subst ht'
    exact ⟨fun _ => rfl, fun h => h, fun hc => absurd hc hidx⟩

/-- Witness for C10: updating the only task with a `None` result keeps its
stored result `"old"` while the status becomes `"completed"`. -/
theorem update_falsy_result_witness :
    (applyUpd "completed" Option.none tOld).result = tOld.result ∧
    (applyUpd "completed" Option.none tOld).status = "completed" :=
  ⟨(update_falsy_result_preserved ttW10 "o" "completed" Option.none 0 tOld
      (applyUpd "completed" Option.none tOld) (by decide) (by decide)).1 (Or.inl rfl),
   (update_falsy_result_preserved ttW10 "o" "completed" Option.none 0 tOld
      (applyUpd "completed" Option.none tOld) (by decide) (by decide)).2.2 (by decide)⟩

theorem countP_updateFirst_le (tasks : List Task) (tid st : String) (r : Option String)
    (hst : (st == "pending") = false) :
    (updateFirst tasks tid st r).countP (fun t => t.status == "pending") ≤
      tasks.countP (fun t => t.status == "pending") := by
  induction tasks with
  | nil => exact Nat.le_refl _
  | cons hd tl ih =>
    rw [updateFirst_cons]
    by_cases h : hd.id = tid
    · rw [if_pos h]
      simp only [List.countP_cons, applyUpd, hst]
      simp
    · rw [if_neg h]
      simp only [List.countP_cons]
      omega

theorem countP_updateFirst_lt (tasks : List Task) (tid st : String) (r : Option String)
    (hst : (st == "pending") = false) (u : Task)
    (hu : tasks.find? (fun t => t.id == tid) = some u) (hup : u.status = "pending") :
    (updateFirst tasks tid st r).countP (fun t => t.status == "pending") <
      tasks.countP (fun t => t.status == "pending") := by
  induction tasks with
  | nil => simp at hu
  | cons hd tl ih =>
    rw [updateFirst_cons]
    by_cases h : hd.id = tid
    · rw [if_pos h]
      rw [List.find?_cons_of_pos tl (by simpa using h)] at hu
      have hhd : hd = u := by
        cases hu
        rfl
      subst hhd
      simp only [List.countP_cons, applyUpd, hst, hup]
      simp
    · rw [if_neg h]
      rw [List.find?_cons_of_neg tl (by simpa using h)] at hu
      simp only [List.countP_cons]
      exact Nat.add_lt_add_right (ih hu) _

theorem find?_id_of_nodup (tasks : List Task)
    (hnd : (tasks.map Task.id).Nodup) (t : Task) (ht : t ∈ tasks) :
    tasks.find? (fun u => u.id == t.id) = some t := by
  induction tasks with
  | nil => simp at ht
  | cons hd tl ih =>
    rw [List.map_cons, List.nodup_cons] at hnd
    rcases List.mem_cons.mp ht with rfl | htl
    · exact List.find?_cons_of_pos tl (by simp)
    · have hne : hd.id ≠ t.id := fun hc => hnd.1 (hc ▸ List.mem_map_of_mem Task.id htl)
      rw [List.find?_cons_of_neg tl (by simpa using hne)]
      exact ih hnd.2 htl

theorem countPending_update_le (tt : TaskTree) (tid st : String) (r : Option String)
    (hst : (st == "pending") = false) :
    countPending (tt.update_task_status tid st r) ≤ countPending tt :=
  countP_updateFirst_le tt.tasks tid st r hst

theorem countPending_processTask_le (exec : TaskTree → Task → Except String String)
    (tt : TaskTree) (task : Task) :
    countPending (processTask exec tt task) ≤ countPending tt := by
  unfold processTask
  by_cases h : task.id = "root"
  · rw [if_pos h]
    exact countPending_update_le tt task.id "completed" Option.none rfl
  · rw [if_neg h]
    cases exec tt task with
    | ok r => exact countPending_update_le tt task.id "completed" (some r) rfl
    | error e => exact countPending_update_le tt task.id "failed" (some e) rfl

theorem countPending_processTask_lt (exec : TaskTree → Task → Except String String)
    (tt : TaskTree) (task : Task) (hnd : (tt.tasks.map Task.id).Nodup)
    (hmem : task ∈ tt.tasks) (hp : task.status = "pending") :
    countPending (processTask exec tt task) < countPending tt := by
  have hfind := find?_id_of_nodup tt.tasks hnd task hmem
  unfold processTask
  by_cases h : task.id = "root"
  · rw [if_pos h]
    exact countP_updateFirst_lt tt.tasks task.id "completed" Option.none rfl task hfind hp
  · rw [if_neg h]
    cases exec tt task with
    | ok r => exact countP_updateFirst_lt tt.tasks task.id "completed" (some r) rfl task hfind hp
    | error e => exact countP_updateFirst_lt tt.tasks task.id "failed" (some e) rfl task hfind hp

theorem countPending_foldl_le (exec : TaskTree → Task → Except String String)
    (l : List Task) (tt : TaskTree) :
    countPending (l.foldl (processTask exec) tt) ≤ countPending tt := by
  induction l generalizing tt with
  | nil => exact Nat.le_refl _
  | cons a l ih =>
    rw [List.foldl_cons]
    exact Nat.le_trans (ih (processTask exec tt a)) (countPending_processTask_le exec tt a)

theorem execStep_countPending_lt (exec : TaskTree → Task → Except String String)
    (tt : TaskTree) (hnd : (tt.tasks.map Task.id).Nodup)
    (hne : tt.get_ready_tasks ≠ []) :
    countPending (execStep exec tt) < countPending tt := by
  rcases hr : tt.get_ready_tasks with _ | ⟨r, rest⟩
  · exact absurd hr hne
  · have hrmem : r ∈ tt.get_ready_tasks := hr ▸ List.mem_cons_self r rest
    obtain ⟨hmem, hp⟩ := mem_ready_pending tt r hrmem
    unfold execStep
    rw [hr, List.foldl_cons]
    exact Nat.lt_of_le_of_lt (countPending_foldl_le exec rest (processTask exec tt r))
      (countPending_processTask_lt exec tt r hnd hmem hp)

theorem execStep_map_id (exec : TaskTree → Task → Except String String) (tt : TaskTree) :
    (execStep exec tt).tasks.map Task.id = tt.tasks.map Task.id := by
  have h := execStep_map_topo exec tt
  have h1 : (execStep exec tt).tasks.map Task.id =
      ((execStep exec tt).tasks.map topoT).map (fun p => p.1) := by
    rw [List.map_map]
    rfl
  rw [h1, h, List.map_map]
  rfl

theorem exec_terminates_aux (exec : TaskTree → Task → Except String String) :
    ∀ (N : Nat) (tt : TaskTree), countPending tt ≤ N →
      (tt.tasks.map Task.id).Nodup →
      ∃ n, ((execStep exec)^[n] tt).get_ready_tasks = [] := by
  intro N
  induction N with
  | zero =>
    intro tt hle hnd
    by_cases h : tt.get_ready_tasks = []
    · exact ⟨0, h⟩
    · exfalso
      rcases hr : tt.get_ready_tasks with _ | ⟨r, rest⟩
      · exact h hr
      · have hrmem : r ∈ tt.get_ready_tasks := hr ▸ List.mem_cons_self r rest
        obtain ⟨hmem, hp⟩ := mem_ready_pending tt r hrmem
        have hpos : 0 < countPending tt := by
          rw [countPending, List.countP_pos_iff]
          exact ⟨r, hmem, by simpa using hp⟩
        omega
  | succ N ih =>
    intro tt hle hnd
    by_cases h : tt.get_ready_tasks = []
    · exact ⟨0, h⟩
    · have hlt := execStep_countPending_lt exec tt hnd h
      have hnd' : ((execStep exec tt).tasks.map Task.id).Nodup := by
        rw [execStep_map_id]
        exact hnd
      obtain ⟨n, hn⟩ := ih (execStep exec tt) (by omega) hnd'
      exact ⟨n + 1, by rwa [Function.iterate_succ_apply]⟩

/-- C2 (amended): for every graph whose task ids are pairwise distinct —
including graphs with cyclic or dangling dependencies and graphs whose
executors fail — the drain loop of `execution_node` strictly shrinks the
number of pending tasks while any task is ready, and therefore reaches, in
finitely many iterations, the state with no ready task that is its sole
exit condition. -/
theorem exec_loop_terminates_of_nodup (exec : TaskTree → Task → Except String String)
    (tt : TaskTree) (hnd : (tt.tasks.map Task.id).Nodup) :
    (tt.get_ready_tasks ≠ [] → countPending (execStep exec tt) < countPending tt) ∧
    ∃ n, ((execStep exec)^[n] tt).get_ready_tasks = [] :=
  ⟨fun h => execStep_countPending_lt exec tt hnd h,
   exec_terminates_aux exec (countPending tt) tt (Nat.le_refl _) hnd⟩

/-- Witness for C2 on the concrete default tree with always-succeeding
executors. -/
theorem exec_loop_terminates_witness :
    countPending (execStep (execOf agentsOk) (default_task_tree "查询")) <
        countPending (default_task_tree "查询") ∧
      ∃ n, ((execStep (execOf agentsOk))^[n] (default_task_tree "查询")).get_ready_tasks = [] :=
  ⟨(exec_loop_terminates_of_nodup (execOf agentsOk) (default_task_tree "查询")
      (by decide)).1 (by decide),
   (exec_loop_terminates_of_nodup (execOf agentsOk) (default_task_tree "查询")
      (by decide)).2⟩

/-- Counterexample to C2 as stated: on the graph parsed from a plan whose
two subtasks share the id `"x"` — a graph the parser really produces — the
drain loop never reaches an empty ready set: the second `"x"` task stays
pending forever because every update hits the first one. -/
theorem exec_loop_dup_ids_diverges :
    ¬ ∃ n, ((execStep (execOf agentsOk))^[n] ttDup).get_ready_tasks = [] := by
  have hfix : execStep (execOf agentsOk) (execStep (execOf agentsOk) ttDup) =
      execStep (execOf agentsOk) ttDup := by decide
  have hiter : ∀ n, (execStep (execOf agentsOk))^[n + 1] ttDup =
      execStep (execOf agentsOk) ttDup := by
    intro n
    induction n with
    | zero => rfl
    | succ k ihk =>
      rw [Function.iterate_succ_apply', ihk, hfix]
  rintro ⟨n, hn⟩
  cases n with
  | zero =>
    rw [Function.iterate_zero_apply] at hn
    exact absurd hn (by decide)
  | succ k =>
    rw [hiter k] at hn
    exact absurd hn (by decide)

theorem parse_ok_of_error (uuidGen : Nat → String) (root : XElem) (q : String)
    (h : subtasksOf uuidGen root = Except.error ()) :
    parse_task_tree_xml uuidGen (Except.ok root) q = default_task_tree q := by
  show (match subtasksOf uuidGen root with
        | Except.error _ => default_task_tree q
        | Except.ok subtasks =>
          { root_task := rootTaskFor q, tasks := rootTaskFor q :: subtasks }) =
      default_task_tree q
  rw [h]

theorem parse_ok_of_ok (uuidGen : Nat → String) (root : XElem) (q : String)
    (ts : List Task) (h : subtasksOf uuidGen root = Except.ok ts) :
    parse_task_tree_xml uuidGen (Except.ok root) q =
      { root_task := rootTaskFor q, tasks := rootTaskFor q :: ts } := by
  show (match subtasksOf uuidGen root with
        | Except.error _ => default_task_tree q
        | Except.ok subtasks =>
          { root_task := rootTaskFor q, tasks := rootTaskFor q :: subtasks }) =
      { root_task := rootTaskFor q, tasks := rootTaskFor q :: ts }
  rw [h]

theorem parseTasks_cons_ok (uuidGen : Nat → String) (te : XElem) (rest : List XElem)
    (k : Nat) (t0 : Task) (k1 : Nat) (hp : parseTask uuidGen k te = Except.ok (t0, k1)) :
    parseTasks uuidGen (te :: rest) k =
      match parseTasks uuidGen rest k1 with
      | Except.error e => Except.error e
      | Except.ok ts => Except.ok (t0 :: ts) := by
  show (match parseTask uuidGen k te with
        | Except.error e => Except.error e
        | Except.ok (t, k') =>
          match parseTasks uuidGen rest k' with
          | Except.error e => Except.error e
          | Except.ok ts => Except.ok (t :: ts)) =
      match parseTasks uuidGen rest k1 with
      | Except.error e => Except.error e
      | Except.ok ts => Except.ok (t0 :: ts)
  rw [hp]

/-- C3: evaluation of the failing-executor scenario. With the agent of task
`"A"` raising `Exception("boom")`, `BaseExecutor.execute` swallows the
exception and returns the string `"执行失败: boom"`, so `execution_node`
marks `"A"` *completed* with that text — not `failed` — and the dependent
task `"B"` becomes ready and runs. -/
theorem executor_exception_marked_completed :
    ((execStep (execOf agentsBoom))^[2] ttC3).tasks.map (fun t => (t.id, t.status, t.result)) =
      [("root", "completed", Option.none),
       ("A", "completed", some "执行失败: boom"),
       ("B", "completed", some "ok")] := by decide

/-- Counterexample to C4 as stated: in the fallback graph the news task has
an empty dependency list — it does not depend on the data-collection task. -/
theorem default_tree_news_no_deps :
    ((default_task_tree "分析腾讯控股").tasks.find? (fun t => t.id == "news_analysis")).map
        (fun t => t.dependencies) = some [] := by decide

/-- C4 (amended): `create_task_tree` never fails outward — it returns either
the parsed graph (synthesized root plus subtasks) or the deterministic
fallback graph, and does return the fallback whenever the generator call or
`ET.fromstring` raises; the fallback's fixed topology is: root, a
data-collection task, technical and risk tasks each depending on
data-collection, a news task with *no* dependencies, and a report task
depending on technical, news and risk. -/
theorem create_task_tree_total_fallback (uuidGen : Nat → String)
    (pr : Except Unit (Except Unit XElem)) (q : String) :
    (create_task_tree uuidGen pr q = default_task_tree q ∨
      ∃ ts, create_task_tree uuidGen pr q =
        { root_task := rootTaskFor q, tasks := rootTaskFor q :: ts }) ∧
    ((pr = Except.error () ∨ pr = Except.ok (Except.error ())) →
      create_task_tree uuidGen pr q = default_task_tree q) ∧
    (default_task_tree q).tasks.map (fun t => (t.id, t.dependencies, t.status)) =
      [("root", [], "pending"),
       ("data_collection", [], "pending"),
       ("technical_analysis", ["data_collection"], "pending"),
       ("news_analysis", [], "pending"),
       ("risk_assessment", ["data_collection"], "pending"),
       ("report_generation", ["technical_analysis", "news_analysis", "risk_assessment"], "pending")] := by
  refine ⟨?_, ?_, rfl⟩
  · cases pr with
    | error e => exact Or.inl rfl
    | ok fr =>
      cases fr with
      | error e => exact Or.inl rfl
      | ok root =>
        rcases hts : subtasksOf uuidGen root with e | subtasks
        · cases e
          left
          show parse_task_tree_xml uuidGen (Except.ok root) q = default_task_tree q
          exact parse_ok_of_error uuidGen root q hts
        · right
          refine ⟨subtasks, ?_⟩
          show parse_task_tree_xml uuidGen (Except.ok root) q = _
          exact parse_ok_of_ok uuidGen root q subtasks hts
  · rintro (rfl | rfl) <;> rfl

/-- Witness for C4: fallback on a raising generator call. -/
theorem create_task_tree_fallback_witness :
    create_task_tree uuidGen0 (Except.error ()) "查询A" = default_task_tree "查询A" :=
  (create_task_tree_total_fallback uuidGen0 (Except.error ()) "查询A").2.1 (Or.inl rfl)

theorem mem_updateFirst (t : Task) (tasks : List Task) (tid st : String)
    (r : Option String) (ht : t ∈ updateFirst tasks tid st r) :
    t ∈ tasks ∨ ∃ u, u ∈ tasks ∧ t = applyUpd st r u := by
  induction tasks with
  | nil => simp [updateFirst] at ht
  | cons hd tl ih =>
    rw [updateFirst_cons] at ht
    by_cases h : hd.id = tid
    · rw [if_pos h] at ht
      rcases List.mem_cons.mp ht with rfl | htl
      · exact Or.inr ⟨hd, List.mem_cons_self hd tl, rfl⟩
      · exact Or.inl (List.mem_cons_of_mem hd htl)
    · rw [if_neg h] at ht
      rcases List.mem_cons.mp ht with rfl | htl
      · exact Or.inl (List.mem_cons_self t tl)
      · rcases ih htl with h1 | ⟨u, hu, rfl⟩
        · exact Or.inl (List.mem_cons_of_mem hd h1)
        · exact Or.inr ⟨u, List.mem_cons_of_mem hd hu, rfl⟩

theorem default_result_none (q : String) :
    ∀ t ∈ (default_task_tree q).tasks, t.result = Option.none := by
  intro t ht
  simp only [default_task_tree, List.mem_cons, List.not_mem_nil, or_false] at ht
  rcases ht with rfl | rfl | rfl | rfl | rfl | rfl <;> rfl

theorem parseTask_result_none (uuidGen : Nat → String) (k : Nat) (te : XElem)
    (t : Task) (k' : Nat) (h : parseTask uuidGen k te = Except.ok (t, k')) :
    t.result = Option.none := by
  unfold parseTask at h
  rcases h1 : idOr te uuidGen k with e | p
  · rw [h1] at h
    simp at h
  · rw [h1] at h
    obtain ⟨idV, k1⟩ := p
    rcases h2 : fieldOr te "name" "默认任务" with e | nameV
    · rw [h2] at h
      simp at h
    · rw [h2] at h
      rcases h3 : fieldOr te "description" "默认描述" with e | descV
      · rw [h3] at h
        simp at h
      · rw [h3] at h
        rcases h4 : fieldOr te "executor_type" "data_collector" with e | execV
        · rw [h4] at h
          simp at h
        · rw [h4] at h
          simp only [Except.ok.injEq, Prod.mk.injEq] at h
          rw [← h.1]

theorem parseTasks_result_none (uuidGen : Nat → String) :
    ∀ (l : List XElem) (k : Nat) (ts : List Task),
      parseTasks uuidGen l k = Except.ok ts → ∀ t ∈ ts, t.result = Option.none := by
  intro l
  induction l with
  | nil =>
    intro k ts h t ht
    unfold parseTasks at h
    simp only [Except.ok.injEq] at h
    rw [← h] at ht
    simp at ht
  | cons te rest ih =>
    intro k ts h t ht
    rcases hp : parseTask uuidGen k te with e | p
    · unfold parseTasks at h
      rw [hp] at h
      simp at h
    · obtain ⟨t0, k1⟩ := p
      rw [parseTasks_cons_ok uuidGen te rest k t0 k1 hp] at h
      rcases hr : parseTasks uuidGen rest k1 with e | ts1
      · rw [hr] at h
        simp at h
      · rw [hr] at h
        simp at h
        rw [← h] at ht
        rcases List.mem_cons.mp ht with rfl | htl
        · exact parseTask_result_none uuidGen k te t k1 hp
        · exact ih k1 ts1 hr t htl

theorem parse_result_none (uuidGen : Nat → String) (fr : Except Unit XElem) (q : String) :
    ∀ t ∈ (parse_task_tree_xml uuidGen fr q).tasks, t.result = Option.none := by
  cases fr with
  | error e =>
    show ∀ t ∈ (default_task_tree q).tasks, t.result = Option.none
    exact default_result_none q
  | ok root =>
    rcases hts : subtasksOf uuidGen root with e | subtasks
    · cases e
      rw [parse_ok_of_error uuidGen root q hts]
      exact default_result_none q
    · rw [parse_ok_of_ok uuidGen root q subtasks hts]
      intro t ht
      rcases List.mem_cons.mp ht with rfl | htl
      · rfl
      · unfold subtasksOf at hts
        rcases hfind : root.find "tasks" with _ | tasksElem
        · rw [hfind] at hts
          simp at hts
          rw [hts] at htl
          simp at htl
        · rw [hfind] at hts
          exact parseTasks_result_none uuidGen (tasksElem.findall "task") 0 subtasks hts t htl

theorem create_result_none (uuidGen : Nat → String)
    (pr : Except Unit (Except Unit XElem)) (q : String) :
    ∀ t ∈ (create_task_tree uuidGen pr q).tasks, t.result = Option.none := by
  cases pr with
  | error e =>
    show ∀ t ∈ (default_task_tree q).tasks, t.result = Option.none
    exact default_result_none q
  | ok fr =>
    show ∀ t ∈ (parse_task_tree_xml uuidGen fr q).tasks, t.result = Option.none
    exact parse_result_none uuidGen fr q

/-- C5 (amended): in every tree reachable from parsing followed by scheduler
status updates, a task with a non-`None` result has a terminal status
(`"completed"` or `"failed"`). The converse direction of the claimed
equivalence is false — see the counterexample. -/
theorem reachable_result_implies_terminal (tt : TaskTree) (h : SchedReachable tt) :
    ∀ t ∈ tt.tasks, t.result ≠ Option.none →
      t.status = "completed" ∨ t.status = "failed" := by
  induction h with
  | parsed uuidGen pr q =>
    intro t ht hres
    exact absurd (create_result_none uuidGen pr q t ht) hres
  | upd tid st r tt' hst hrec ih =>
    intro t ht hres
    rcases mem_updateFirst t tt'.tasks tid st r ht with htl | ⟨u, hu, rfl⟩
    · exact ih t htl hres
    · rcases hst with rfl | rfl
      · exact Or.inl rfl
      · exact Or.inr rfl

/-- The default tree is reachable: it is the parse of a raising generator. -/
theorem sched_reachable_default (q : String) : SchedReachable (default_task_tree q) :=
  SchedReachable.parsed uuidGen0 (Except.error ()) q

/-- Counterexample to C5 as stated: after the scheduler's root
auto-completion — reachable as parse followed by one status update — the
root task is `"completed"` while its result is still `None`, so "result set
iff status completed or failed" fails. -/
theorem root_completed_result_none :
    SchedReachable ((default_task_tree "查询B").update_task_status "root" "completed" Option.none) ∧
    (((default_task_tree "查询B").update_task_status "root" "completed" Option.none).tasks.find?
        (fun t => t.id == "root")).map (fun t => (t.status, t.result)) =
      some ("completed", Option.none) :=
  ⟨SchedReachable.upd "root" "completed" Option.none (default_task_tree "查询B")
      (Or.inl rfl) (sched_reachable_default "查询B"),
   by decide⟩

/-- The data-collection task of the default tree after its completion with
the result `"收集完成"` — the inhabitant used by the C5 witness. -/
def tC5 : Task :=
  { id := "data_collection", name := "基础数据收集",
    description := "收集0700.HK的基础财务和市场数据",
    executor_type := "data_collector", dependencies := [],
    parameters := [("symbol", PVal.str "0700.HK"), ("period", PVal.str "1y")],
    status := "completed", result := some "收集完成" }

/-- A reachable tree carrying a set result, for the C5 witness. -/
def ttW5 : TaskTree :=
  (default_task_tree "查询C").update_task_status "data_collection" "completed" (some "收集完成")

/-- Witness for C5 at the reachable tree `ttW5`. -/
theorem reachable_result_terminal_witness :
    tC5.status = "completed" ∨ tC5.status = "failed" :=
  reachable_result_implies_terminal ttW5
    (SchedReachable.upd "data_collection" "completed" (some "收集完成")
      (default_task_tree "查询C") (Or.inl rfl) (sched_reachable_default "查询C"))
    tC5 (by decide) (by decide)

/-- Counterexample to C6 as stated: on the parsed A → B → C plan the initial
ready set is not exactly `{A}` — the synthesized root task, itself pending
with no dependencies, is in it as well. -/
theorem parse_abc_initial_ready_has_root :
    ttABC0.get_ready_tasks.map (fun t => t.id) = ["root", "A"] := by decide

/-- C6 (amended): on the parsed A → B → C plan, `get_ready_tasks` returns
exactly root and A initially, exactly B once root and A are completed,
exactly C once B is completed, and the empty set once C is completed. -/
theorem parse_abc_ready_sequence :
    ttABC0.get_ready_tasks.map (fun t => t.id) = ["root", "A"] ∧
    ttABC1.get_ready_tasks.map (fun t => t.id) = ["B"] ∧
    ttABC2.get_ready_tasks.map (fun t => t.id) = ["C"] ∧
    ttABC3.get_ready_tasks = [] := by decide

/-- Counterexample to C7 as stated: a subtask element entirely missing its
`<id>` element makes `task_elem.find('id').text` raise `AttributeError`, so
the whole otherwise-parseable plan is discarded in favour of the default
tree — the task is not kept with a substituted id. -/
theorem parse_missing_id_falls_back :
    parse_task_tree_xml uuidGen0 (Except.ok xmlNoId) "查询D" = default_task_tree "查询D" := by
  decide

/-- C7 (amended): when a subtask's field *elements* are present but empty,
the parser keeps the task and substitutes the fixed defaults — a freshly
generated uuid for the id, `"默认任务"`, `"默认描述"` and the data-collector
kind; a wholly absent field element instead aborts the plan (see the
counterexample). -/
theorem parse_empty_fields_defaults (uuidGen : Nat → String) (q : String) :
    parse_task_tree_xml uuidGen (Except.ok xmlEmptyFields) q =
      { root_task := rootTaskFor q,
        tasks := [rootTaskFor q,
          { id := uuidGen 0, name := "默认任务", description := "默认描述",
            executor_type := "data_collector", dependencies := [], parameters := [],
            status := "pending", result := Option.none }] } := rfl

end Graph
